import Mathlib

/-!
Verification of the mpd-gen scalar codec layer and validated builder layer.

The definitions in this file are a shallow embedding of the Rust sources:
`src/types.rs` (scalar codecs), `src/definition.rs` (profile constants and
patterns), `src/entity.rs` (regex patterns), `src/element.rs` and
`src/element/{mpd,segment}.rs` (validated builders).  Rust `u32`/`u64`
values are modelled as `Nat` with explicit range checks where the source
performs a fallible machine-integer parse; fallible operations return
`Except MpdError` mirroring `crate::Result`.
-/

/-- Error taxonomy from `src/error.rs` (`MpdError`).  Only the constructors
reachable from the embedded code paths are modelled; payloads of wrapped
foreign errors (`ParseIntError` etc.) are dropped since only their identity
matters to the embedded control flow. -/
inductive MpdError where
  | invalidData (msg : String)
  | unmatchedPattern
  | validationError (msg : String)
  | parseIntError
  | parseFloatError
  deriving DecidableEq, Repr

/-! ## Decimal digit strings

Rust's `{}` formatting of an unsigned integer prints its decimal digits;
`str::parse::<uN>` accepts an optional leading `+` followed by one or more
decimal digits, and fails on overflow.  These are modelled from that
documented behaviour of the Rust standard library. -/

/-- The decimal digit character for `n < 10` (Rust integer formatting). -/
def digitChar10 (n : Nat) : Char :=
  match n with
  | 0 => '0' | 1 => '1' | 2 => '2' | 3 => '3' | 4 => '4'
  | 5 => '5' | 6 => '6' | 7 => '7' | 8 => '8' | _ => '9'

/-- Fuel-driven decimal expansion; `fuel > n` suffices. -/
def natDigitsAux : Nat → Nat → List Char
  | 0, _ => []
  | fuel + 1, n =>
    if n < 10 then [digitChar10 n]
    else natDigitsAux fuel (n / 10) ++ [digitChar10 (n % 10)]

/-- Decimal digits of `n`, most significant first (Rust `format!("{n}")`). -/
def natDigits (n : Nat) : List Char := natDigitsAux (n + 1) n

/-- Decimal representation of `n` as a string. -/
def natStr (n : Nat) : String := ⟨natDigits n⟩

/-- Numeric value of a decimal digit character. -/
def digitVal (c : Char) : Nat := c.toNat - 48

def parseDigitsAux : Nat → List Char → Option Nat
  | acc, [] => some acc
  | acc, c :: cs =>
    if c.isDigit then parseDigitsAux (acc * 10 + digitVal c) cs else none

/-- Parse a non-empty all-digit string to its value. -/
def parseDigits : List Char → Option Nat
  | [] => none
  | cs => parseDigitsAux 0 cs

/-- Drop a single leading `+` (Rust unsigned-integer parsing accepts it). -/
def stripPlus (cs : List Char) : List Char :=
  match cs with
  | [] => []
  | c :: rest => if c = '+' then rest else c :: rest

/-- Model of Rust `str::parse::<uN>()` for a type with `bound = 2^N`:
optional `+`, one or more digits, value below the bound. -/
def parseNatBounded (bound : Nat) (cs : List Char) : Option Nat :=
  match parseDigits (stripPlus cs) with
  | some v => if v < bound then some v else none
  | none => none

/-- Rust `str::parse::<u32>()`. -/
def parseU32 (cs : List Char) : Option Nat := parseNatBounded (2 ^ 32) cs

/-- Rust `str::parse::<u64>()`. -/
def parseU64 (cs : List Char) : Option Nat := parseNatBounded (2 ^ 64) cs

/-! ## Character-level split (Rust `str::split(char)`) -/

/-- Model of Rust `s.split(sep).collect::<Vec<_>>()`: splits at every
occurrence of `sep`, keeping empty segments. -/
def splitCh (sep : Char) : List Char → List (List Char)
  | [] => [[]]
  | c :: cs =>
    match splitCh sep cs with
    | [] => [[]]
    | t :: ts => if c = sep then [] :: t :: ts else (c :: t) :: ts

/-! ## `Ratio` (src/types.rs, `sar`/`par` aspect ratio) -/

/-- `Ratio` from `src/types.rs`: two `u32` fields, as stored (the parser
performs no reduction). -/
structure Ratio where
  horizontal : Nat
  vertical : Nat
  deriving DecidableEq, Repr

/-- `impl FromStr for Ratio`: split on `:`, require exactly two parts, parse
each as `u32`.  No gcd reduction is applied. -/
def ratioFromStr (s : String) : Except MpdError Ratio :=
  match splitCh ':' s.data with
  | [a, b] =>
    match parseU32 a, parseU32 b with
    | some h, some v => .ok ⟨h, v⟩
    | _, _ => .error .parseIntError
  | _ => .error .unmatchedPattern

/-- `impl From<(u32, u32)> for Ratio`: divide both components by their gcd. -/
def ratioFromPair (p : Nat × Nat) : Ratio :=
  let divisor := Nat.gcd p.1 p.2
  ⟨p.1 / divisor, p.2 / divisor⟩

/-- `impl fmt::Display for Ratio`. -/
def ratioFmt (r : Ratio) : String :=
  natStr r.horizontal ++ ":" ++ natStr r.vertical

/-! ## `SingleByteRange` (src/types.rs, RFC 7233 single range) -/

/-- `SingleByteRange`: mandatory `first : u32`, optional `last : u32`. -/
structure SingleByteRange where
  first : Nat
  last : Option Nat
  deriving DecidableEq, Repr

/-- `impl FromStr for SingleByteRange`: split on `-`, require exactly two
parts; the left part must parse as `u32`; a non-empty right part must parse
as `u32`; when both bounds are present, reject `last < first`. -/
def singleByteRangeFromStr (s : String) : Except MpdError SingleByteRange :=
  match splitCh '-' s.data with
  | [a, b] =>
    match parseU32 a with
    | none => .error .parseIntError
    | some first =>
      if b.isEmpty then .ok ⟨first, none⟩
      else
        match parseU32 b with
        | none => .error .parseIntError
        | some l =>
          if l < first then .error .unmatchedPattern else .ok ⟨first, some l⟩
  | _ => .error .unmatchedPattern

/-- `impl fmt::Display for SingleByteRange`. -/
def singleByteRangeFmt (r : SingleByteRange) : String :=
  natStr r.first ++ "-" ++ (match r.last with | some n => natStr n | none => "")

/-! ## `XsDuration` (src/types.rs, xs:duration) -/

/-- `XsDuration`: a `std::time::Duration` (whole seconds plus sub-second
nanoseconds, `nanos < 10^9` in any value the library constructs) and a sign
flag. -/
structure XsDuration where
  secs : Nat
  nanos : Nat
  isNegative : Bool
  deriving DecidableEq, Repr

/-- The Rust formatter's trailing-zero strip: `while nanos % 10 == 0 { nanos /= 10 }`.
Fuel-driven; 32 steps cover every value below `10^32`, far beyond the `u32`
nanosecond field.  (The Rust loop is only ever entered with `nanos != 0`.) -/
def stripZerosAux : Nat → Nat → Nat
  | 0, n => n
  | fuel + 1, n => if n % 10 = 0 then stripZerosAux fuel (n / 10) else n

def stripZeros (n : Nat) : Nat := stripZerosAux 32 n

/-- `impl fmt::Display for XsDuration`: always starts with `PT` (or `-PT`),
emits hours, minutes, then seconds; a non-zero nanosecond field is appended
as `.{nanos-with-trailing-zeros-stripped}` after the seconds. -/
def xsDurationFmt (d : XsDuration) : String :=
  let base := if d.isNegative then "-PT" else "PT"
  let hours := d.secs / 3600
  let rem := d.secs % 3600
  let o1 := if hours ≠ 0 then base ++ natStr hours ++ "H" else base
  let minutes := rem / 60
  let seconds := rem % 60
  let o2 := if minutes ≠ 0 then o1 ++ natStr minutes ++ "M" else o1
  if d.nanos ≠ 0 then
    o2 ++ natStr seconds ++ "." ++ natStr (stripZeros d.nanos) ++ "S"
  else if seconds ≠ 0 then o2 ++ natStr seconds ++ "S"
  else o2

/-- `std::time::Duration` addition of whole seconds. -/
def durAddSecs (d : Nat × Nat) (s : Nat) : Nat × Nat := (d.1 + s, d.2)

/-- `std::time::Duration` addition of a nanosecond count (normalising carry). -/
def durAddNanos (d : Nat × Nat) (n : Nat) : Nat × Nat :=
  let total := d.2 + n % 1000000000
  (d.1 + n / 1000000000 + total / 1000000000, total % 1000000000)

/-- The fractional-seconds branch of duration parsing.  The source computes
`(value.parse::<f64>()? * 1_000_000_000.0) as u64`; this model performs the
same conversion in exact decimal arithmetic (truncating like the `as` cast).
The binary rounding of the intermediate `f64` is not modelled; no theorem in
this file depends on the numeric value produced by this branch. -/
def fracNanos (cs : List Char) : Option Nat :=
  match splitCh '.' cs with
  | [ip, fp] =>
    if ip.isEmpty && fp.isEmpty then none
    else
      let ipv := (parseDigits ip).getD 0
      let fpv := (parseDigits fp).getD 0
      let k := fp.length
      some (ipv * 1000000000 + (if k ≤ 9 then fpv * 10 ^ (9 - k) else fpv / 10 ^ (k - 9)))
  | _ => none

/-- The character-consuming loop of `impl FromStr for XsDuration`.  State:
remaining input, accumulated digit run (`value`), the unit bitmask (`flag`),
and the accumulated duration.  Returns the final flag and duration. -/
def xsDurParseLoop : List Char → List Char → Nat → Nat × Nat →
    Except MpdError (Nat × (Nat × Nat))
  | [], _, flag, dur => .ok (flag, dur)
  | c :: rest, value, flag, dur =>
    if c.isDigit ∨ (c = '.' ∧ value.contains '.' = false) then
      xsDurParseLoop rest (value ++ [c]) flag dur
    else if c = 'T' then
      if rest.isEmpty then .error .unmatchedPattern
      else xsDurParseLoop rest value (flag ||| 8) dur
    else if value.isEmpty then .error .unmatchedPattern
    else if c = 'Y' ∧ flag = 0 then
      match parseU64 value with
      | none => .error .parseIntError
      | some y => xsDurParseLoop rest [] (flag ||| 1) (durAddSecs dur (y * 365 * 24 * 60 * 60))
    else if c = 'M' ∧ flag < 2 then
      match parseU64 value with
      | none => .error .parseIntError
      | some m => xsDurParseLoop rest [] (flag ||| 2) (durAddSecs dur (m * 30 * 24 * 60 * 60))
    else if c = 'D' ∧ flag < 4 then
      match parseU64 value with
      | none => .error .parseIntError
      | some d => xsDurParseLoop rest [] (flag ||| 4) (durAddSecs dur (d * 24 * 60 * 60))
    else if c = 'H' ∧ 8 ≤ flag ∧ flag < 16 then
      match parseU64 value with
      | none => .error .parseIntError
      | some h => xsDurParseLoop rest [] (flag ||| 16) (durAddSecs dur (h * 60 * 60))
    else if c = 'M' ∧ 8 ≤ flag ∧ flag < 32 then
      match parseU64 value with
      | none => .error .parseIntError
      | some m => xsDurParseLoop rest [] (flag ||| 32) (durAddSecs dur (m * 60))
    else if c = 'S' ∧ 8 ≤ flag ∧ flag < 64 then
      if value.contains '.' then
        match fracNanos value with
        | none => .error .parseFloatError
        | some n => xsDurParseLoop rest [] flag (durAddNanos dur n)
      else
        match parseU64 value with
        | none => .error .parseIntError
        | some sv => xsDurParseLoop rest [] flag (durAddSecs dur sv)
    else .error .unmatchedPattern

/-- `impl FromStr for XsDuration`: optional leading `-`, mandatory `P`, the
unit loop, and the final validity mask `flag & 0b1111_0111 != 0` (any unit
bit other than the `T` marker must have been recorded). -/
def xsDurationFromStr (s : String) : Except MpdError XsDuration :=
  let (isNeg, cs) :=
    match s.data with
    | '-' :: rest => (true, rest)
    | cs => (false, cs)
  match cs with
  | 'P' :: rest =>
    match xsDurParseLoop rest [] 0 (0, 0) with
    | .error e => .error e
    | .ok (flag, dur) =>
      if flag &&& 247 ≠ 0 then .ok ⟨dur.1, dur.2, isNeg⟩
      else .error .unmatchedPattern
  | _ => .error .unmatchedPattern

/-! ## RFC 6381 codec lists (src/types.rs, src/entity.rs) -/

/-- The quote character used by the fancy-list grammar. -/
def quoteCh : Char := Char.ofNat 39

/-- `CHARSET` character class `[A-Za-z0-9-]`. -/
def isCharsetChar (c : Char) : Bool := c.isAlpha || c.isDigit || c = '-'

/-- `ID_ENCODED` character class `[A-Za-z0-9.-]`. -/
def isIdEncodedChar (c : Char) : Bool := c.isAlpha || c.isDigit || c = '.' || c = '-'

/-- `ID_SIMPLE` character class `[A-Za-z0-9-]`. -/
def isIdSimpleChar (c : Char) : Bool := c.isAlpha || c.isDigit || c = '-'

/-- Model of the regex `\s` class (ASCII subset; none of the inputs the
theorems touch contain exotic Unicode whitespace). -/
def isWsChar (c : Char) : Bool := c.isWhitespace

/-- `LANGUAGE` pattern `[a-zA-Z]{1,8}(-[a-zA-Z0-9]{1,8})*`. -/
def languageMatch (cs : List Char) : Bool :=
  match splitCh '-' cs with
  | [] => false
  | p :: ps =>
    (decide (1 ≤ p.length ∧ p.length ≤ 8) && p.all Char.isAlpha) &&
      ps.all (fun q => decide (1 ≤ q.length ∧ q.length ≤ 8) && q.all Char.isAlphanum)

/-- `CHARSET` pattern `[A-Za-z0-9-]+`. -/
def charsetMatch (cs : List Char) : Bool := !cs.isEmpty && cs.all isCharsetChar

/-- The id-list pattern `ID(?:,\s*ID)*` for a given id character class:
splitting on `,` (ids cannot contain `,`), the first part is a non-empty id
and every later part is optional whitespace followed by a non-empty id. -/
def idListMatch (cls : Char → Bool) (cs : List Char) : Bool :=
  match splitCh ',' cs with
  | [] => false
  | p :: ps =>
    (!p.isEmpty && p.all cls) &&
      ps.all (fun q =>
        let r := q.dropWhile isWsChar
        !r.isEmpty && r.all cls)

/-- `FancyList` from `src/types.rs`. -/
structure FancyList where
  charset : Option String
  language : Option String
  codecs : List String
  deriving DecidableEq, Repr

/-- `impl FromStr for FancyList` via `PATTERN_FANCY`
(`^(?:(charset)'(language)')?(codecs)$`).  None of the charset, language or
id character classes contain the quote character, so a full regex match
decomposes uniquely at the quote characters; the capture named `codecs` is
then split on `,` (keeping any whitespace after the commas, exactly as the
source's `split(",")` on the capture does). -/
def fancyFromStr (s : String) : Except MpdError FancyList :=
  match splitCh quoteCh s.data with
  | [x] =>
    if idListMatch isIdEncodedChar x then
      .ok ⟨none, none, (splitCh ',' x).map (fun p => String.mk p)⟩
    else .error .unmatchedPattern
  | [c, l, r] =>
    if charsetMatch c && languageMatch l && idListMatch isIdEncodedChar r then
      .ok ⟨some ⟨c⟩, some ⟨l⟩, (splitCh ',' r).map (fun p => String.mk p)⟩
    else .error .unmatchedPattern
  | _ => .error .unmatchedPattern

/-- `SimpList` from `src/types.rs`. -/
structure SimpList where
  codecs : List String
  deriving DecidableEq, Repr

/-- `impl FromStr for SimpList` via `PATTERN_SIMPLE` (`^ID(?:,\s*ID)*$`). -/
def simpFromStr (s : String) : Except MpdError SimpList :=
  if idListMatch isIdSimpleChar s.data then
    .ok ⟨(splitCh ',' s.data).map (fun p => String.mk p)⟩
  else .error .unmatchedPattern

/-- `Codecs` from `src/types.rs`. -/
inductive Codecs where
  | Fancy (f : FancyList)
  | Simp (l : SimpList)
  deriving DecidableEq, Repr

/-- Whether the input contains a quote or a dot (`s.contains("'") || s.contains(".")`). -/
def hasQuoteOrDot (s : String) : Bool := s.data.contains quoteCh || s.data.contains '.'

/-- `impl FromStr for Codecs`: quote or dot selects the fancy grammar,
otherwise the simple grammar. -/
def codecsFromStr (s : String) : Except MpdError Codecs :=
  if hasQuoteOrDot s then (fancyFromStr s).map Codecs.Fancy
  else (simpFromStr s).map Codecs.Simp

/-! ## `Profile` (src/definition.rs) and `PATTERN_PROFILE` (src/entity.rs) -/

/-- `Profile` enumeration: twelve well-known DASH profile URNs plus the
`Other(String)` escape hatch. -/
inductive Profile where
  | full | isoOnDemand | isoLive | isoMain | mp2tMain | mp2tSimple
  | isoExtLive | isoExtOnDemand | isoCommon | isoBroadcast | cmaf | cmafExt
  | other (uri : String)
  deriving DecidableEq, Repr

/-- URN segment character class `[a-zA-Z0-9-]`. -/
def isUrnSegChar (c : Char) : Bool := c.isAlpha || c.isDigit || c = '-'

/-- The special characters of the `URL` pattern character class
`[a-zA-Z0-9-._~:/?#\[@\]!$&'()*+,;=]`. -/
def urlSpecialChars : List Char :=
  ['-', '.', '_', '~', ':', '/', '?', '#', '[', '@', ']', '!', '$', '&',
    quoteCh, '(', ')', '*', '+', ',', ';', '=']

def isUrlChar (c : Char) : Bool := c.isAlpha || c.isDigit || urlSpecialChars.contains c

/-- Scanner states for `PATTERN_PROFILE` = `^(URN|URL)(,(URN|URL))*$` with
`URN = urn:[a-zA-Z0-9-]+(:[a-zA-Z0-9-]+)*` and `URL = https?://C+`.
`comp` expects the start of a component; `urnSeg` expects a URN segment;
`urlFirst` expects the first URL character; `urlMore` may stop at a comma
(which is itself also a URL character, so both continuations are tried). -/
inductive ProfScanState where
  | comp | urnSeg | urlFirst | urlMore
  deriving Repr

/-- Fuel-driven decision procedure for membership in the `PATTERN_PROFILE`
language.  Every transition consumes at least one character, so fuel
`length + 2` suffices. -/
def profScan : Nat → ProfScanState → List Char → Bool
  | 0, _, _ => false
  | fuel + 1, st, cs =>
    match st with
    | .comp =>
      if cs.take 4 = ['u', 'r', 'n', ':'] then profScan fuel .urnSeg (cs.drop 4)
      else if cs.take 8 = ['h', 't', 't', 'p', 's', ':', '/', '/'] then
        profScan fuel .urlFirst (cs.drop 8)
      else if cs.take 7 = ['h', 't', 't', 'p', ':', '/', '/'] then
        profScan fuel .urlFirst (cs.drop 7)
      else false
    | .urnSeg =>
      let seg := cs.takeWhile isUrnSegChar
      if seg.isEmpty then false
      else
        match cs.drop seg.length with
        | [] => true
        | ':' :: rest => profScan fuel .urnSeg rest
        | ',' :: rest => profScan fuel .comp rest
        | _ => false
    | .urlFirst =>
      match cs with
      | [] => false
      | c :: rest => isUrlChar c && profScan fuel .urlMore rest
    | .urlMore =>
      match cs with
      | [] => true
      | c :: rest =>
        (c = ',' && profScan fuel .comp rest) || (isUrlChar c && profScan fuel .urlMore rest)

/-- `PATTERN_PROFILE.is_match`. -/
def patternProfile (s : String) : Bool := profScan (s.data.length + 2) .comp s.data

/-- The twelve well-known profile URN strings of `src/definition.rs`. -/
def knownProfileStrs : List String :=
  ["urn:mpeg:dash:profile:full:2011",
   "urn:mpeg:dash:profile:isoff-on-demand:2011",
   "urn:mpeg:dash:profile:isoff-live:2011",
   "urn:mpeg:dash:profile:isoff-main:2011",
   "urn:mpeg:dash:profile:mp2t-main:2011",
   "urn:mpeg:dash:profile:mp2t-simple:2011",
   "urn:mpeg:dash:profile:isoff-ext-live:2014",
   "urn:mpeg:dash:profile:isoff-ext-on-demand:2014",
   "urn:mpeg:dash:profile:isoff-common:2014",
   "urn:mpeg:dash:profile:isoff-broadcast:2015",
   "urn:mpeg:dash:profile:cmaf:2019",
   "urn:mpeg:dash:profile:cmaf-extended:2019"]

/-- `impl FromStr for Profile`: strings matching `PATTERN_PROFILE` map to the
matching known constant or fall back to `Other`; everything else is a
pattern error. -/
def profileFromStr (s : String) : Except MpdError Profile :=
  if patternProfile s then
    .ok (if s = "urn:mpeg:dash:profile:full:2011" then .full
      else if s = "urn:mpeg:dash:profile:isoff-on-demand:2011" then .isoOnDemand
      else if s = "urn:mpeg:dash:profile:isoff-live:2011" then .isoLive
      else if s = "urn:mpeg:dash:profile:isoff-main:2011" then .isoMain
      else if s = "urn:mpeg:dash:profile:mp2t-main:2011" then .mp2tMain
      else if s = "urn:mpeg:dash:profile:mp2t-simple:2011" then .mp2tSimple
      else if s = "urn:mpeg:dash:profile:isoff-ext-live:2014" then .isoExtLive
      else if s = "urn:mpeg:dash:profile:isoff-ext-on-demand:2014" then .isoExtOnDemand
      else if s = "urn:mpeg:dash:profile:isoff-common:2014" then .isoCommon
      else if s = "urn:mpeg:dash:profile:isoff-broadcast:2015" then .isoBroadcast
      else if s = "urn:mpeg:dash:profile:cmaf:2019" then .cmaf
      else if s = "urn:mpeg:dash:profile:cmaf-extended:2019" then .cmafExt
      else .other s)
  else .error .unmatchedPattern

/-! ## Validated builders (src/element.rs, src/element/mpd.rs, src/element/segment.rs)

`derive_builder` with `setter(into, strip_option), default` stores every
builder field as `Option<FieldType>` (so an `Option` struct field becomes a
doubly-nested option in the builder, `none` = never set).  With the
struct-level `default`, `build()` runs the configured validator and, on
success, fills every unset field with its `Default` value — so `build()`
fails exactly when the validator fails. -/

/-- `ProducerReferenceTimeType` enumeration from `src/types.rs`. -/
inductive ProducerReferenceTimeType where
  | encoder | captured | application
  deriving DecidableEq, Repr

/-- The builder state of `ProducerReferenceTime` (fields read by its
validator plus the remaining attribute fields; the optional nested
`UTCTiming` descriptor is irrelevant to validation and omitted). -/
structure ProducerReferenceTimeBuilder where
  id : Option Nat := none
  inband : Option (Option Bool) := none
  rType : Option (Option ProducerReferenceTimeType) := none
  applicationScheme : Option (Option String) := none
  wallClockTime : Option String := none
  presentationTime : Option Nat := none
  deriving DecidableEq, Repr

/-- `impl NeedValidater for ProducerReferenceTimeBuilder`: requires `id`,
`wallClockTime` and `presentationTime`; then errors only when the type is
set to `Application` and no application scheme is present.  (Note: the
second branch is the only conditional check the source performs.) -/
def prtValidate (b : ProducerReferenceTimeBuilder) : Except String Unit :=
  if b.id = none ∨ b.wallClockTime = none ∨ b.presentationTime = none then
    .error "ProducerReferenceTime must be set @id, @wallClockTime and @presentationTime"
  else if b.rType = some (some .application) ∧ b.applicationScheme = none then
    .error "If the @type is set other than application, this attribute shall not be present"
  else .ok ()

/-- `PresentationType` enumeration from `src/types.rs`. -/
inductive PresentationType where
  | staticT | dynamic
  deriving DecidableEq, Repr

/-- `ListOfProfiles` from `src/types.rs`: an ordered profile sequence. -/
structure ListOfProfiles where
  value : List Profile
  deriving DecidableEq, Repr

/-- `XsDateTime` (a `chrono::DateTime<Utc>` instant).  Modelled opaquely as
its UTC timestamp; only field presence matters to the builder invariants
verified here. -/
structure XsDateTime where
  utcTicks : Int
  deriving DecidableEq, Repr

/-- The builder state of the root `MPD` element, restricted to the fields
its validator reads plus the mandatory `minBufferTime`; all remaining MPD
fields are independent of the root validation rule. -/
structure MPDBuilder where
  profiles : Option ListOfProfiles := none
  rType : Option (Option PresentationType) := none
  availabilityStartTime : Option (Option XsDateTime) := none
  publishTime : Option (Option XsDateTime) := none
  minBufferTime : Option XsDuration := none
  deriving DecidableEq, Repr

/-- The built (immutable) `MPD` projection of the same fields. -/
structure MPD where
  profiles : ListOfProfiles
  rType : Option PresentationType
  availabilityStartTime : Option XsDateTime
  publishTime : Option XsDateTime
  minBufferTime : XsDuration
  deriving DecidableEq, Repr

/-- `impl CustomValidate for MPDBuilder`: `profiles` must be set and
non-empty; when the presentation type is set to `Dynamic`, both
`availabilityStartTime` and `publishTime` must be set. -/
def mpdValidate (b : MPDBuilder) : Except MpdError Unit :=
  if (match b.profiles with
      | some p => p.value.isEmpty
      | none => true) = true then
    .error (.validationError "MPD must be set profiles.")
  else if b.rType = some (some .dynamic) ∧
      (b.availabilityStartTime = none ∨ b.publishTime = none) then
    .error (.validationError
      "For @type='dynamic', @availabilityStartTime and @publishTime attribute shall be present")
  else .ok ()

/-- `MPDBuilder::build()`: validate, then construct with per-field defaults. -/
def mpdBuild (b : MPDBuilder) : Except MpdError MPD :=
  match mpdValidate b with
  | .error e => .error e
  | .ok _ =>
    .ok { profiles := b.profiles.getD ⟨[]⟩
          rType := b.rType.getD none
          availabilityStartTime := b.availabilityStartTime.getD none
          publishTime := b.publishTime.getD none
          minBufferTime := b.minBufferTime.getD ⟨0, 0, false⟩ }

/-- The builder state of a `SegmentTimeline` `S` entry (src/element/segment.rs). -/
structure SegmentBuilder where
  startTime : Option (Option Nat) := none
  number : Option (Option Nat) := none
  duration : Option Nat := none
  segmentCount : Option (Option Nat) := none
  repeatCount : Option (Option Int) := none
  deriving DecidableEq, Repr

/-- The built `Segment` value. -/
structure Segment where
  startTime : Option Nat
  number : Option Nat
  duration : Nat
  segmentCount : Option Nat
  repeatCount : Option Int
  deriving DecidableEq, Repr

/-- `impl CustomValidate for SegmentBuilder`: the duration must be set and
must not be zero. -/
def segmentValidate (b : SegmentBuilder) : Except MpdError Unit :=
  if b.duration = none ∨ b.duration = some 0 then
    .error (.validationError "Segment duration must be set longer than 0")
  else .ok ()

/-- `SegmentBuilder::build()`: validate, then construct with defaults. -/
def segmentBuild (b : SegmentBuilder) : Except MpdError Segment :=
  match segmentValidate b with
  | .error e => .error e
  | .ok _ =>
    .ok { startTime := b.startTime.getD none
          number := b.number.getD none
          duration := b.duration.getD 0
          segmentCount := b.segmentCount.getD none
          repeatCount := b.repeatCount.getD none }

/-! ## Whitespace-separated lists and `AudioSamplingRate` (src/types.rs) -/

/-- Model of Rust `str::split_whitespace()`: maximal non-whitespace runs,
empty tokens discarded.  The accumulator holds the current run reversed. -/
def splitWsAux : List Char → List Char → List (List Char)
  | [], acc => if acc.isEmpty then [] else [acc.reverse]
  | c :: cs, acc =>
    if isWsChar c then
      if acc.isEmpty then splitWsAux cs [] else acc.reverse :: splitWsAux cs []
    else splitWsAux cs (c :: acc)

def splitWs (cs : List Char) : List (List Char) := splitWsAux cs []

/-- `WhitespaceSeparatedList<T>` from `src/types.rs`. -/
structure WhitespaceSeparatedList (α : Type) where
  value : List α
  deriving DecidableEq, Repr

/-- Element-wise parse used by `WhitespaceSeparatedList<T>::from_str`:
every element failure is mapped to `InvalidData("Failed to parse from str")`,
the first failure wins. -/
def wslParseAll (p : List Char → Option α) : List (List Char) → Except MpdError (List α)
  | [] => .ok []
  | t :: ts =>
    match p t with
    | none => .error (.invalidData "Failed to parse from str")
    | some v =>
      match wslParseAll p ts with
      | .ok l => .ok (v :: l)
      | .error e => .error e

/-- `UIntVector = WhitespaceSeparatedList<u32>`. -/
abbrev UIntVector := WhitespaceSeparatedList Nat

/-- `impl FromStr for WhitespaceSeparatedList<u32>`. -/
def uintVectorFromStr (s : String) : Except MpdError UIntVector :=
  match wslParseAll parseU32 (splitWs s.data) with
  | .ok l => .ok ⟨l⟩
  | .error e => .error e

/-- Element-wise `u32` parse used by `AudioSamplingRate::from_str`
(`collect::<Result<Vec<u32>>>` with `ParseIntError` wrapping). -/
def parseAllU32 : List (List Char) → Except MpdError (List Nat)
  | [] => .ok []
  | t :: ts =>
    match parseU32 t with
    | none => .error .parseIntError
    | some v =>
      match parseAllU32 ts with
      | .ok l => .ok (v :: l)
      | .error e => .error e

/-- `AudioSamplingRate` newtype over `UIntVector`. -/
structure AudioSamplingRate where
  value : UIntVector
  deriving DecidableEq, Repr

/-- `impl FromStr for AudioSamplingRate`: split on whitespace, parse every
token as `u32`, then require between one and two values. -/
def audioSamplingRateFromStr (s : String) : Except MpdError AudioSamplingRate :=
  match parseAllU32 (splitWs s.data) with
  | .error e => .error e
  | .ok items =>
    if 0 < items.length ∧ items.length < 3 then .ok ⟨⟨items⟩⟩
    else .error (.invalidData "The number of Audio sampling rate must be between 1 and 2")

/-! ### Round-trip lemmas for decimal strings -/

theorem digitChar10_isDigit (n : Nat) (h : n < 10) : (digitChar10 n).isDigit = true := by
  interval_cases n <;> decide

theorem digitVal_digitChar10 (n : Nat) (h : n < 10) : digitVal (digitChar10 n) = n := by
  interval_cases n <;> decide

theorem natDigitsAux_fuel (f₁ f₂ n : Nat) (h₁ : n < f₁) (h₂ : n < f₂) :
    natDigitsAux f₁ n = natDigitsAux f₂ n := by
  induction n using Nat.strong_induction_on generalizing f₁ f₂ with
  | _ n ih =>
    match f₁, f₂ with
    | f₁ + 1, f₂ + 1 =>
      by_cases h10 : n < 10
      · simp [natDigitsAux, h10]
      · have hdiv : n / 10 < n := Nat.div_lt_self (by omega) (by omega)
        have e := ih (n / 10) hdiv f₁ f₂ (by omega) (by omega)
        simp [natDigitsAux, h10, e]

theorem natDigitsAux_ne_nil (f n : Nat) (h : n < f) : natDigitsAux f n ≠ [] := by
  match f with
  | f + 1 =>
    by_cases h10 : n < 10
    · simp [natDigitsAux, h10]
    · simp [natDigitsAux, h10]

theorem natDigitsAux_all_digits (f n : Nat) (h : n < f) :
    ∀ c ∈ natDigitsAux f n, c.isDigit = true := by
  induction n using Nat.strong_induction_on generalizing f with
  | _ n ih =>
    match f with
    | f + 1 =>
      by_cases h10 : n < 10
      · simp [natDigitsAux, h10]
        exact digitChar10_isDigit n h10
      · have hdiv : n / 10 < n := Nat.div_lt_self (by omega) (by omega)
        intro c hc
        simp only [natDigitsAux, if_neg h10, List.mem_append, List.mem_singleton] at hc
        rcases hc with hc | hc
        · exact ih (n / 10) hdiv f (by omega) c hc
        · subst hc; exact digitChar10_isDigit _ (Nat.mod_lt _ (by omega))

theorem parseDigitsAux_all (acc : Nat) (cs : List Char)
    (h : ∀ c ∈ cs, c.isDigit = true) :
    parseDigitsAux acc cs = some (cs.foldl (fun a c => a * 10 + digitVal c) acc) := by
  induction cs generalizing acc with
  | nil => simp [parseDigitsAux]
  | cons c cs ih =>
    have hc : c.isDigit = true := h c (List.mem_cons_self _ _)
    simp only [parseDigitsAux, hc, if_true, List.foldl_cons]
    exact ih _ (fun d hd => h d (List.mem_cons_of_mem _ hd))

theorem natDigitsAux_foldl (f n acc : Nat) (h : n < f) :
    (natDigitsAux f n).foldl (fun a c => a * 10 + digitVal c) acc =
      acc * 10 ^ (natDigitsAux f n).length + n := by
  induction n using Nat.strong_induction_on generalizing f acc with
  | _ n ih =>
    match f with
    | f + 1 =>
      by_cases h10 : n < 10
      · simp [natDigitsAux, h10, digitVal_digitChar10 n h10]
      · have hdiv : n / 10 < n := Nat.div_lt_self (by omega) (by omega)
        have hmod : n % 10 < 10 := Nat.mod_lt _ (by omega)
        simp only [natDigitsAux, if_neg h10, List.foldl_append, List.foldl_cons,
          List.foldl_nil, List.length_append, List.length_singleton]
        rw [ih (n / 10) hdiv f acc (by omega), digitVal_digitChar10 _ hmod]
        generalize (natDigitsAux f (n / 10)).length = L
        calc (acc * 10 ^ L + n / 10) * 10 + n % 10
            = acc * (10 ^ L * 10) + (10 * (n / 10) + n % 10) := by ring
          _ = acc * 10 ^ (L + 1) + n := by rw [Nat.div_add_mod, pow_succ]

theorem parseDigits_eq_aux (cs : List Char) (h : cs ≠ []) :
    parseDigits cs = parseDigitsAux 0 cs := by
  match cs with
  | [] => exact absurd rfl h
  | c :: cs => rfl

theorem parseDigits_natDigits (n : Nat) : parseDigits (natDigits n) = some n := by
  unfold natDigits
  rw [parseDigits_eq_aux _ (natDigitsAux_ne_nil (n + 1) n (Nat.lt_succ_self n)),
    parseDigitsAux_all 0 _ (natDigitsAux_all_digits (n + 1) n (Nat.lt_succ_self n)),
    natDigitsAux_foldl (n + 1) n 0 (Nat.lt_succ_self n)]
  simp

theorem natDigits_no_plus (n : Nat) : stripPlus (natDigits n) = natDigits n := by
  have hall : ∀ c ∈ natDigits n, c.isDigit = true :=
    natDigitsAux_all_digits (n + 1) n (Nat.lt_succ_self n)
  match hcs : natDigits n with
  | [] => rfl
  | c :: cs =>
    have hc : c.isDigit = true := hall c (hcs ▸ List.mem_cons_self _ _)
    have : c ≠ '+' := by intro h; subst h; simp [Char.isDigit] at hc
    simp [stripPlus, this]

theorem parseU32_natDigits (n : Nat) (h : n < 2 ^ 32) : parseU32 (natDigits n) = some n := by
  simp only [parseU32, parseNatBounded, natDigits_no_plus, parseDigits_natDigits]
  rw [if_pos h]

theorem natDigits_not_mem (n : Nat) (c : Char) (hc : c.isDigit = false) :
    c ∉ natDigits n := by
  intro hmem
  have := natDigitsAux_all_digits (n + 1) n (Nat.lt_succ_self n) c hmem
  rw [hc] at this
  exact Bool.false_ne_true this

theorem splitCh_ne_nil (sep : Char) (cs : List Char) : splitCh sep cs ≠ [] := by
  match cs with
  | [] => simp [splitCh]
  | c :: cs =>
    simp only [splitCh]
    match h : splitCh sep cs with
    | [] => simp
    | t :: ts => by_cases hc : c = sep <;> simp [hc]

theorem splitCh_no_sep (sep : Char) (cs : List Char) (h : ∀ c ∈ cs, c ≠ sep) :
    splitCh sep cs = [cs] := by
  induction cs with
  | nil => rfl
  | cons c cs ih =>
    have hc : c ≠ sep := h c (List.mem_cons_self _ _)
    have := ih (fun d hd => h d (List.mem_cons_of_mem _ hd))
    simp [splitCh, this, hc]

theorem splitCh_append_sep (sep : Char) (xs ys : List Char) (h : ∀ c ∈ xs, c ≠ sep) :
    splitCh sep (xs ++ sep :: ys) = xs :: splitCh sep ys := by
  induction xs with
  | nil =>
    simp only [List.nil_append, splitCh]
    match hys : splitCh sep ys with
    | [] => exact absurd hys (splitCh_ne_nil sep ys)
    | t :: ts => simp
  | cons x xs ih =>
    have hx : x ≠ sep := h x (List.mem_cons_self _ _)
    have hmain := ih (fun d hd => h d (List.mem_cons_of_mem _ hd))
    show splitCh sep (x :: (xs ++ sep :: ys)) = (x :: xs) :: splitCh sep ys
    simp only [splitCh, hmain]
    simp [hx]

/-- Concatenating list-backed strings concatenates the backing lists. -/
theorem strMk_append (l₁ l₂ : List Char) :
    (String.mk l₁ ++ String.mk l₂ : String) = String.mk (l₁ ++ l₂) := rfl

/-! ## Helper lemmas for the claim theorems -/

theorem natDigits_ne_char (n : Nat) (a : Char) (ha : a.isDigit = false) :
    ∀ c ∈ natDigits n, c ≠ a :=
  fun _ hc he => natDigits_not_mem n a ha (he ▸ hc)

theorem natDigits_not_isEmpty (n : Nat) : (natDigits n).isEmpty = false := by
  have hne : natDigits n ≠ [] := natDigitsAux_ne_nil (n + 1) n (Nat.lt_succ_self n)
  cases hcs : natDigits n with
  | nil => exact absurd hcs hne
  | cons c cs => rfl

/-! ## Claim theorems -/

/-- C1: the spec's round-trip law `parse(format(v)) == Ok(v)` for scalar
codecs fails on `XsDuration`: the 30-second duration formats to `PT30S`,
which the parser rejects (`UnmatchedPattern`), because the seconds arm of
the unit loop never records a unit bit while the final validity mask
`flag & 0b1111_0111 != 0` requires one.  So `parse(format(v))` is an error
rather than `Ok(v)` for every seconds-only duration value. -/
theorem c1_duration_roundtrip_violation :
    xsDurationFmt ⟨30, 0, false⟩ = "PT30S" ∧
    xsDurationFromStr "PT30S" = .error .unmatchedPattern ∧
    xsDurationFromStr (xsDurationFmt ⟨30, 0, false⟩) ≠ .ok ⟨30, 0, false⟩ := by
  refine ⟨rfl, rfl, ?_⟩
  have h : xsDurationFromStr (xsDurationFmt ⟨30, 0, false⟩) = .error .unmatchedPattern := rfl
  rw [h]
  simp

/-- C2 counterexample: `Ratio` parsing performs no gcd reduction, so
`parse("1920:1080")` yields `(1920, 1080)`, which differs from the value
`(16, 9)` produced by `parse("16:9")` — contradicting the claim that every
parsed `Ratio` is stored in lowest terms. -/
theorem c2_ratio_counterexample :
    ratioFromStr "1920:1080" = .ok ⟨1920, 1080⟩ ∧
    ratioFromStr "16:9" = .ok ⟨16, 9⟩ ∧
    (⟨1920, 1080⟩ : Ratio) ≠ (⟨16, 9⟩ : Ratio) :=
  ⟨rfl, rfl, by decide⟩

/-- C2 amended: for every pair of `u32`-range integers `a`, `b`, parsing
the string `a:b` succeeds and stores the pair exactly as written, without
reduction; gcd reduction to lowest terms happens only in the
`From<(u32, u32)>` constructor, where `(1920, 1080)` does reduce to
`(16, 9)`. -/
theorem c2_ratio_parse_unreduced :
    (∀ a b : Nat, a < 2 ^ 32 → b < 2 ^ 32 →
      ratioFromStr (natStr a ++ ":" ++ natStr b) = .ok ⟨a, b⟩) ∧
    ratioFromPair (1920, 1080) = ⟨16, 9⟩ := by
  constructor
  · intro a b ha hb
    have hdata : (natStr a ++ ":" ++ natStr b).data = natDigits a ++ ':' :: natDigits b := by
      simp [natStr, strMk_append]
    unfold ratioFromStr
    rw [hdata, splitCh_append_sep ':' _ _ (natDigits_ne_char a ':' (by decide)),
      splitCh_no_sep ':' _ (natDigits_ne_char b ':' (by decide))]
    simp [parseU32_natDigits a ha, parseU32_natDigits b hb]
  · simp only [ratioFromPair]
    norm_num

/-- C2 witness: instantiating the amended round-trip at `1920:1080`. -/
theorem c2_ratio_witness :
    ratioFromStr (natStr 1920 ++ ":" ++ natStr 1080) = .ok ⟨1920, 1080⟩ :=
  c2_ratio_parse_unreduced.1 1920 1080 (by norm_num) (by norm_num)

/-- C3: the `ProducerReferenceTime` validator checks only one direction of
the application-scheme conditional.  With `id`, `wallClockTime` and
`presentationTime` set: type = `Application` without a scheme fails, and
with a scheme succeeds, as claimed — but type ≠ `Application` (here
`Captured`) with a scheme set also succeeds, where the claim (and the
source's own error message) says it must fail. -/
theorem c3_prt_conditional_one_directional :
    prtValidate
      { id := some 0, wallClockTime := some "2024-01-01T00:00:00Z",
        presentationTime := some 0, rType := some (some .application),
        applicationScheme := none } =
      .error "If the @type is set other than application, this attribute shall not be present" ∧
    prtValidate
      { id := some 0, wallClockTime := some "2024-01-01T00:00:00Z",
        presentationTime := some 0, rType := some (some .application),
        applicationScheme := some (some "urn:example:scheme") } = .ok () ∧
    prtValidate
      { id := some 0, wallClockTime := some "2024-01-01T00:00:00Z",
        presentationTime := some 0, rType := some (some .captured),
        applicationScheme := some (some "urn:example:scheme") } = .ok () :=
  ⟨rfl, rfl, rfl⟩

/-- C5 counterexample: an empty left side of a byte range does not mean
"no start bound" — `parse("-499")` fails (the left part must itself parse
as a `u32`, and the empty string does not). -/
theorem c5_byterange_counterexample :
    singleByteRangeFromStr "-499" = .error .parseIntError := rfl

/-- C5 amended: byte-range parsing splits on `-` requiring exactly two
parts; the left part is a mandatory `u32` (an empty left side is rejected,
there is no "no start bound" form); an empty right side is an open end;
multi-dash and non-numeric inputs are rejected; and with both bounds
present parsing succeeds exactly when `last ≥ first`. -/
theorem c5_byterange_amended :
    (∀ a b : Nat, a < 2 ^ 32 → b < 2 ^ 32 → a ≤ b →
      singleByteRangeFromStr (natStr a ++ "-" ++ natStr b) = .ok ⟨a, some b⟩) ∧
    (∀ a b : Nat, a < 2 ^ 32 → b < 2 ^ 32 → b < a →
      singleByteRangeFromStr (natStr a ++ "-" ++ natStr b) = .error .unmatchedPattern) ∧
    (∀ a : Nat, a < 2 ^ 32 →
      singleByteRangeFromStr (natStr a ++ "-") = .ok ⟨a, none⟩) ∧
    singleByteRangeFromStr "-499" = .error .parseIntError ∧
    singleByteRangeFromStr "500-499" = .error .unmatchedPattern ∧
    singleByteRangeFromStr "0-499" = .ok ⟨0, some 499⟩ ∧
    singleByteRangeFromStr "500-" = .ok ⟨500, none⟩ ∧
    singleByteRangeFromStr "0-499,500-999" = .error .unmatchedPattern ∧
    singleByteRangeFromStr "1-2-3" = .error .unmatchedPattern ∧
    singleByteRangeFromStr "a-1" = .error .parseIntError := by
  refine ⟨?_, ?_, ?_, rfl, rfl, rfl, rfl, rfl, rfl, rfl⟩
  · intro a b ha hb hle
    have hdata : (natStr a ++ "-" ++ natStr b).data = natDigits a ++ '-' :: natDigits b := by
      simp [natStr, strMk_append]
    unfold singleByteRangeFromStr
    rw [hdata, splitCh_append_sep '-' _ _ (natDigits_ne_char a '-' (by decide)),
      splitCh_no_sep '-' _ (natDigits_ne_char b '-' (by decide))]
    simp [parseU32_natDigits a ha, parseU32_natDigits b hb, natDigits_not_isEmpty,
      Nat.not_lt.mpr hle]
  · intro a b ha hb hlt
    have hdata : (natStr a ++ "-" ++ natStr b).data = natDigits a ++ '-' :: natDigits b := by
      simp [natStr, strMk_append]
    unfold singleByteRangeFromStr
    rw [hdata, splitCh_append_sep '-' _ _ (natDigits_ne_char a '-' (by decide)),
      splitCh_no_sep '-' _ (natDigits_ne_char b '-' (by decide))]
    simp [parseU32_natDigits a ha, parseU32_natDigits b hb, natDigits_not_isEmpty, hlt]
  · intro a ha
    have hdata : (natStr a ++ "-").data = natDigits a ++ '-' :: ([] : List Char) := by
      simp [natStr, strMk_append]
    unfold singleByteRangeFromStr
    rw [hdata, splitCh_append_sep '-' _ _ (natDigits_ne_char a '-' (by decide))]
    simp [splitCh, parseU32_natDigits a ha]

/-- C5 witness: instantiating the amended characterisation at `0-499`. -/
theorem c5_byterange_witness :
    singleByteRangeFromStr (natStr 0 ++ "-" ++ natStr 499) = .ok ⟨0, some 499⟩ :=
  c5_byterange_amended.1 0 499 (by norm_num) (by norm_num) (by norm_num)

/-- C4: codecs parsing is deterministically dispatched — an input containing
a quote or a dot is parsed only against the fancy grammar, any other input
only against the simple grammar; the selected grammar must match the whole
input or parsing fails (a semicolon-separated list is rejected by both). -/
theorem c4_codecs_dispatch :
    (∀ s : String, ∀ r : Codecs, codecsFromStr s = .ok r →
      (hasQuoteOrDot s = true → ∃ f, r = Codecs.Fancy f) ∧
      (hasQuoteOrDot s = false → ∃ l, r = Codecs.Simp l)) ∧
    (∀ s : String, hasQuoteOrDot s = true →
      codecsFromStr s = (fancyFromStr s).map Codecs.Fancy) ∧
    (∀ s : String, hasQuoteOrDot s = false →
      codecsFromStr s = (simpFromStr s).map Codecs.Simp) ∧
    codecsFromStr "avc1.4d0028,mp4a.40.2" =
      .ok (.Fancy ⟨none, none, ["avc1.4d0028", "mp4a.40.2"]⟩) ∧
    codecsFromStr "avc1,mp4a" = .ok (.Simp ⟨["avc1", "mp4a"]⟩) ∧
    codecsFromStr "avc1.4d0028;mp4a.40.2" = .error .unmatchedPattern ∧
    codecsFromStr "avc1;mp4a" = .error .unmatchedPattern := by
  refine ⟨?_, ?_, ?_, rfl, rfl, rfl, rfl⟩
  · intro s r h
    constructor
    · intro hq
      simp only [codecsFromStr, hq, if_true] at h
      cases hf : fancyFromStr s with
      | error e => rw [hf] at h; simp [Except.map] at h
      | ok f =>
        rw [hf] at h
        simp only [Except.map, Except.ok.injEq] at h
        exact ⟨f, h.symm⟩
    · intro hq
      simp only [codecsFromStr, hq, Bool.false_eq_true, if_false] at h
      cases hl : simpFromStr s with
      | error e => rw [hl] at h; simp [Except.map] at h
      | ok l =>
        rw [hl] at h
        simp only [Except.map, Except.ok.injEq] at h
        exact ⟨l, h.symm⟩
  · intro s hq
    simp [codecsFromStr, hq]
  · intro s hq
    simp [codecsFromStr, hq]

/-- C4 witness: the dispatch theorem applied to the fancy example input. -/
theorem c4_codecs_witness :
    ∃ f, Codecs.Fancy ⟨none, none, ["avc1.4d0028", "mp4a.40.2"]⟩ = Codecs.Fancy f :=
  (c4_codecs_dispatch.1 "avc1.4d0028,mp4a.40.2" _ rfl).1 rfl

/-- C6: with a non-empty profiles list set, the root MPD builder fails when
the presentation type is set to `Dynamic` and `availabilityStartTime` or
`publishTime` is unset, succeeds when both are supplied, and does not
require either timestamp when the type is not set to `Dynamic`. -/
theorem c6_mpd_dynamic_conditional :
    ∀ b : MPDBuilder, ∀ ps : ListOfProfiles,
      b.profiles = some ps → ps.value ≠ [] →
      (b.rType = some (some .dynamic) →
        ((b.availabilityStartTime = none ∨ b.publishTime = none) →
          (mpdBuild b).isOk = false) ∧
        (b.availabilityStartTime ≠ none → b.publishTime ≠ none →
          (mpdBuild b).isOk = true)) ∧
      (b.rType ≠ some (some .dynamic) → (mpdBuild b).isOk = true) := by
  intro b ps hp hne
  have hemp : (match b.profiles with
      | some p => p.value.isEmpty
      | none => true) = false := by
    rw [hp]
    simpa using hne
  refine ⟨fun hdyn => ⟨fun hmiss => ?_, fun hast hpt => ?_⟩, fun hnd => ?_⟩
  · have hv : mpdValidate b = .error (.validationError
        "For @type='dynamic', @availabilityStartTime and @publishTime attribute shall be present") := by
      unfold mpdValidate
      rw [hemp]
      simp only [Bool.false_eq_true, if_false]
      rw [if_pos ⟨hdyn, hmiss⟩]
    simp [mpdBuild, hv, Except.isOk, Except.toBool]
  · have hv : mpdValidate b = .ok () := by
      unfold mpdValidate
      rw [hemp]
      simp only [Bool.false_eq_true, if_false]
      rw [if_neg]
      rintro ⟨-, hm | hm⟩
      · exact hast hm
      · exact hpt hm
    simp [mpdBuild, hv, Except.isOk, Except.toBool]
  · have hv : mpdValidate b = .ok () := by
      unfold mpdValidate
      rw [hemp]
      simp only [Bool.false_eq_true, if_false]
      rw [if_neg]
      rintro ⟨hd, -⟩
      exact hnd hd
    simp [mpdBuild, hv, Except.isOk, Except.toBool]

/-- C6 witness: a dynamic MPD builder with profiles set but no timestamps
fails to build. -/
theorem c6_mpd_dynamic_witness :
    (mpdBuild { profiles := some ⟨[Profile.full]⟩,
                rType := some (some .dynamic) }).isOk = false :=
  ((c6_mpd_dynamic_conditional _ ⟨[Profile.full]⟩ rfl (by simp)).1 rfl).1 (Or.inl rfl)

/-- C7 counterexample: `Profile` parsing does not fall back to `Other` for
every unknown identifier — `"hello"` is not a well-known profile URN, yet
parsing it returns a pattern error instead of `Ok(Other("hello"))`. -/
theorem c7_profile_counterexample :
    profileFromStr "hello" = .error .unmatchedPattern ∧
    "hello" ∉ knownProfileStrs :=
  ⟨rfl, by decide⟩

/-- C7 amended: the `Other` fallback applies only to inputs that match the
profile pattern (a comma-separated list of `urn:` URNs or `http(s)://`
URLs): every such input that is not one of the twelve well-known constants
parses to `Other(input)`; inputs that do not match the pattern are
rejected with an error. -/
theorem c7_profile_fallback_amended :
    ∀ s : String, patternProfile s = true → s ∉ knownProfileStrs →
      profileFromStr s = .ok (.other s) := by
  intro s hp hk
  have hne : ∀ t ∈ knownProfileStrs, s ≠ t := fun t ht he => hk (he ▸ ht)
  unfold profileFromStr
  rw [if_pos hp,
    if_neg (hne _ (by decide)), if_neg (hne _ (by decide)), if_neg (hne _ (by decide)),
    if_neg (hne _ (by decide)), if_neg (hne _ (by decide)), if_neg (hne _ (by decide)),
    if_neg (hne _ (by decide)), if_neg (hne _ (by decide)), if_neg (hne _ (by decide)),
    if_neg (hne _ (by decide)), if_neg (hne _ (by decide)), if_neg (hne _ (by decide))]

/-- C7 witness: an unknown URN matching the pattern falls back to `Other`. -/
theorem c7_profile_witness :
    profileFromStr "urn:example:resource" = .ok (.other "urn:example:resource") :=
  c7_profile_fallback_amended "urn:example:resource" rfl (by decide)

/-- C8: the root MPD builder rejects a missing or empty profiles list, so
every successfully built MPD carries at least one profile. -/
theorem c8_mpd_profiles_required :
    (∀ b : MPDBuilder, b.profiles = none →
      mpdBuild b = .error (.validationError "MPD must be set profiles.")) ∧
    (∀ b : MPDBuilder, ∀ ps : ListOfProfiles, b.profiles = some ps → ps.value = [] →
      mpdBuild b = .error (.validationError "MPD must be set profiles.")) ∧
    (∀ b : MPDBuilder, ∀ m : MPD, mpdBuild b = .ok m → m.profiles.value ≠ []) := by
  refine ⟨?_, ?_, ?_⟩
  · intro b h
    have hv : mpdValidate b = .error (.validationError "MPD must be set profiles.") := by
      simp [mpdValidate, h]
    simp [mpdBuild, hv]
  · intro b ps h hnil
    have hv : mpdValidate b = .error (.validationError "MPD must be set profiles.") := by
      simp [mpdValidate, h, hnil]
    simp [mpdBuild, hv]
  · intro b m h
    unfold mpdBuild at h
    cases hv : mpdValidate b with
    | error e => rw [hv] at h; exact absurd h (by simp)
    | ok u =>
      rw [hv] at h
      simp only [Except.ok.injEq] at h
      subst h
      unfold mpdValidate at hv
      by_cases hc : (match b.profiles with
          | some p => p.value.isEmpty
          | none => true) = true
      · rw [if_pos hc] at hv; exact absurd hv (by simp)
      · cases hbp : b.profiles with
        | none => rw [hbp] at hc; simp at hc
        | some p =>
          rw [hbp] at hc
          simp only [List.isEmpty_iff] at hc
          show ((some p).getD ⟨[]⟩).value ≠ []
          simpa using hc
  
/-- C8 witness: building with one profile yields an MPD whose profile list
is non-empty. -/
theorem c8_mpd_profiles_witness :
    (⟨⟨[Profile.full]⟩, none, none, none, ⟨0, 0, false⟩⟩ : MPD).profiles.value ≠ [] :=
  c8_mpd_profiles_required.2.2 { profiles := some ⟨[Profile.full]⟩ } _ rfl

/-- C9: the SegmentTimeline `S` builder fails when the duration is unset or
zero, so every successfully built Segment has duration at least 1. -/
theorem c9_segment_duration_positive :
    (∀ b : SegmentBuilder, (b.duration = none ∨ b.duration = some 0) →
      segmentBuild b = .error (.validationError "Segment duration must be set longer than 0")) ∧
    (∀ b : SegmentBuilder, ∀ sg : Segment, segmentBuild b = .ok sg → 1 ≤ sg.duration) := by
  constructor
  · intro b h
    have hv : segmentValidate b =
        .error (.validationError "Segment duration must be set longer than 0") := by
      unfold segmentValidate
      rw [if_pos h]
    simp [segmentBuild, hv]
  · intro b sg h
    unfold segmentBuild at h
    cases hv : segmentValidate b with
    | error e => rw [hv] at h; exact absurd h (by simp)
    | ok u =>
      rw [hv] at h
      simp only [Except.ok.injEq] at h
      subst h
      unfold segmentValidate at hv
      by_cases hc : b.duration = none ∨ b.duration = some 0
      · rw [if_pos hc] at hv; exact absurd hv (by simp)
      · push_neg at hc
        obtain ⟨hn, hz⟩ := hc
        cases hbd : b.duration with
        | none => exact absurd hbd hn
        | some d =>
          show 1 ≤ (some d).getD 0
          have : d ≠ 0 := fun h0 => hz (h0 ▸ hbd)
          simpa using Nat.one_le_iff_ne_zero.mpr this

/-- C9 witness: building a segment with duration 5 yields duration ≥ 1. -/
theorem c9_segment_duration_witness :
    1 ≤ (⟨none, none, 5, none, none⟩ : Segment).duration :=
  c9_segment_duration_positive.2 { duration := some 5 } _ rfl

theorem parseAllU32_isOk_iff (ts : List (List Char)) :
    (parseAllU32 ts).isOk = true ↔ ∀ t ∈ ts, (parseU32 t).isSome = true := by
  induction ts with
  | nil => simp [parseAllU32, Except.isOk, Except.toBool]
  | cons t ts ih =>
    cases hp : parseU32 t with
    | none =>
      simp only [parseAllU32, hp]
      constructor
      · intro h; exact absurd h (by simp [Except.isOk, Except.toBool])
      · intro hall
        have := hall t (List.mem_cons_self _ _)
        rw [hp] at this
        simp at this
    | some v =>
      cases hrec : parseAllU32 ts with
      | error e =>
        simp only [parseAllU32, hp, hrec]
        constructor
        · intro h; exact absurd h (by simp [Except.isOk, Except.toBool])
        · intro hall
          have hok : (parseAllU32 ts).isOk = true :=
            ih.mpr (fun u hu => hall u (List.mem_cons_of_mem _ hu))
          rw [hrec] at hok
          exact absurd hok (by simp [Except.isOk, Except.toBool])
      | ok l =>
        simp only [parseAllU32, hp, hrec]
        constructor
        · intro _ u hu
          rcases List.mem_cons.mp hu with h | h
          · subst h; rw [hp]; rfl
          · exact ih.mp (by rw [hrec]; rfl) u h
        · intro _; rfl

theorem parseAllU32_length (ts : List (List Char)) (l : List Nat) :
    parseAllU32 ts = .ok l → l.length = ts.length := by
  induction ts generalizing l with
  | nil =>
    intro h
    simp only [parseAllU32, Except.ok.injEq] at h
    subst h
    rfl
  | cons t ts ih =>
    intro h
    simp only [parseAllU32] at h
    cases hp : parseU32 t with
    | none => rw [hp] at h; exact absurd h (by simp)
    | some v =>
      rw [hp] at h
      cases hrec : parseAllU32 ts with
      | error e => rw [hrec] at h; exact absurd h (by simp)
      | ok l2 =>
        rw [hrec] at h
        simp only [Except.ok.injEq] at h
        subst h
        simp [ih l2 hrec]

/-- C10: AudioSamplingRate parsing succeeds exactly when splitting on
whitespace yields one or two tokens, each a valid `u32`; in particular the
empty string and three-value lists are rejected, whereas the generic
whitespace-separated `u32` list parses the empty string to the empty
sequence. -/
theorem c10_asr_token_count :
    (∀ s : String, (audioSamplingRateFromStr s).isOk = true ↔
      (1 ≤ (splitWs s.data).length ∧ (splitWs s.data).length ≤ 2 ∧
        ∀ t ∈ splitWs s.data, (parseU32 t).isSome = true)) ∧
    audioSamplingRateFromStr "" =
      .error (.invalidData "The number of Audio sampling rate must be between 1 and 2") ∧
    audioSamplingRateFromStr "1 2 3" =
      .error (.invalidData "The number of Audio sampling rate must be between 1 and 2") ∧
    uintVectorFromStr "" = .ok ⟨[]⟩ := by
  refine ⟨?_, rfl, rfl, rfl⟩
  intro s
  cases hall : parseAllU32 (splitWs s.data) with
  | error e =>
    have hno : ¬ ∀ t ∈ splitWs s.data, (parseU32 t).isSome = true := by
      intro hallok
      have hok := (parseAllU32_isOk_iff _).mpr hallok
      rw [hall] at hok
      exact absurd hok (by simp [Except.isOk, Except.toBool])
    simp only [audioSamplingRateFromStr, hall]
    constructor
    · intro h; exact absurd h (by simp [Except.isOk, Except.toBool])
    · rintro ⟨-, -, h3⟩; exact absurd h3 hno
  | ok items =>
    have hlen : items.length = (splitWs s.data).length := parseAllU32_length _ _ hall
    have hok : ∀ t ∈ splitWs s.data, (parseU32 t).isSome = true :=
      (parseAllU32_isOk_iff _).mp (by rw [hall]; rfl)
    simp only [audioSamplingRateFromStr, hall]
    by_cases hc : 0 < items.length ∧ items.length < 3
    · rw [if_pos hc]
      constructor
      · intro _; exact ⟨by omega, by omega, hok⟩
      · intro _; rfl
    · rw [if_neg hc]
      constructor
      · intro h; exact absurd h (by simp [Except.isOk, Except.toBool])
      · rintro ⟨h1, h2, -⟩; exact absurd ⟨by omega, by omega⟩ hc

/-- C10 witness: a single-token input parses successfully. -/
theorem c10_asr_witness : (audioSamplingRateFromStr "44100").isOk = true :=
  (c10_asr_token_count.1 "44100").mpr (by decide)
